import Mathlib

/-!
Verification of the ekoDB Go client's request-execution core
(`client.go`): serialization-format routing, retry/backoff and
error-classification logic of `makeRequestWithRetry`, rate-limit
header extraction, client construction defaults, and the Token
Manager's single-flight refresh.

The HTTP environment is modelled as a list of per-attempt outcomes
(one consumed per send) plus a list of outcomes for calls to the
token-issuance endpoint (one consumed per `refreshToken` call), so the
retry recursion of the Go source becomes structural recursion on the
outcome list.  Sleeping is recorded as a trace of slept durations (in
seconds) rather than real time.
-/

namespace Ekodb

/-- Serialization format of the client (`SerializationFormat` in `client.go`):
`MessagePack` (binary, the zero value and default) or `JSON` (text, opt-in). -/
inductive SerializationFormat
  | MessagePack
  | JSON
deriving DecidableEq

/-- Rate limit snapshot (`RateLimitInfo` in `client.go`); the three integer
fields parsed from the `X-RateLimit-*` response headers. -/
structure RateLimitInfo where
  Limit : Int
  Remaining : Int
  Reset : Int
deriving DecidableEq

/-- Typed HTTP error (`HTTPError` in `client.go`). -/
structure HTTPError where
  StatusCode : Int
  Message : String
deriving DecidableEq

/-- Predicate `HTTPError.IsNotFound` from `client.go`:
`return e.StatusCode == 404`. -/
def HTTPError.IsNotFound (e : HTTPError) : Bool :=
  e.StatusCode = 404

/-- Client configuration (`ClientConfig` in `client.go`).  The Go
`time.Duration` timeout is carried as an `Int` of nanoseconds. -/
structure ClientConfig where
  baseURL : String
  apiKey : String
  shouldRetry : Bool
  maxRetries : Int
  timeout : Int
  format : SerializationFormat
deriving DecidableEq

/-- Client state (`Client` in `client.go`).  The embedded `*http.Client` is
replaced by its only configuration datum, the timeout; the network itself is
supplied to each operation as an explicit outcome list. -/
structure Client where
  baseURL : String
  apiKey : String
  token : String
  shouldRetry : Bool
  maxRetries : Int
  timeout : Int
  format : SerializationFormat
  rateLimitInfo : Option RateLimitInfo
deriving DecidableEq

/-- Response headers read by the client.  Go's `Header.Get` returns `""` for
an absent header, so each field is a `String` with `""` meaning absent. -/
structure Headers where
  retryAfter : String
  rlLimit : String
  rlRemaining : String
  rlReset : String
deriving DecidableEq

/-- Outcome of one HTTP send: a transport-level error (`httpClient.Do`
returning `err != nil`) or a response with status, body and headers. -/
inductive Outcome
  | netError
  | resp (status : Int) (body : String) (headers : Headers)
deriving DecidableEq

/-- Outcome of one call to the token-issuance endpoint inside
`refreshToken`: success with the issued token, or failure (non-200 /
transport / decode error, which `refreshToken` reports as an error and
leaves the stored token untouched). -/
inductive RefreshOutcome
  | ok (token : String)
  | fail (message : String)
deriving DecidableEq

/-- Error taxonomy of a failed request, mirroring the values
`makeRequestWithRetry` can return: the transport error itself,
`*RateLimitError`, the wrapped `failed to refresh token` error, the
`authentication failed after token refresh` error, and `*HTTPError`. -/
inductive ReqError
  | network
  | rateLimit (retryAfterSecs : Int) (message : String)
  | refreshFailed (message : String)
  | authFailedAfterRefresh (status : Int) (body : String)
  | http (status : Int) (message : String)
deriving DecidableEq

/-- The Go type assertion `err.(*HTTPError)` followed by `IsNotFound()`, as
used by `Exists` and `Upsert`: only a typed HTTP error with status 404. -/
def errIsNotFound : ReqError → Bool
  | ReqError.http s m => HTTPError.IsNotFound { StatusCode := s, Message := m }
  | _ => false

/-- Digit-string to number helper for the `strconv.Atoi` model. -/
def parseDigits : List Char → Option Nat
  | [] => none
  | cs =>
    if cs.all (fun c => c.isDigit) then
      some (cs.foldl (fun a c => a * 10 + (c.toNat - 48)) 0)
    else
      none

/-- Model of Go's `strconv.Atoi`: optional sign followed by digits, `none` on
any syntax error.  (Go's clamping of out-of-range values is irrelevant here
and not modelled.) -/
def goAtoi (s : String) : Option Int :=
  match s.toList with
  | [] => none
  | '-' :: rest => (parseDigits rest).map (fun n => -(n : Int))
  | '+' :: rest => (parseDigits rest).map (fun n => (n : Int))
  | cs => (parseDigits cs).map (fun n => (n : Int))

/-- The Go idiom `v, _ := strconv.Atoi(s)`: the parsed value, `0` on error. -/
def goAtoiD (s : String) : Int :=
  (goAtoi s).getD 0

/-- Kernel-computable prefix test on character lists (the Go source checks
`len(path) >= len(p) && path[:len(p)] == p`, which is exactly this). -/
def listIsPrefixOf : List Char → List Char → Bool
  | [], _ => true
  | _ :: _, [] => false
  | a :: as, b :: bs => a == b && listIsPrefixOf as bs

/-- Prefix test on strings, via their character lists. -/
def strIsPrefixOf (p s : String) : Bool :=
  listIsPrefixOf p.toList s.toList

/-- Kernel-computable infix test on character lists. -/
def listInfixOf (sub : List Char) : List Char → Bool
  | [] => sub.isEmpty
  | c :: rest => listIsPrefixOf sub (c :: rest) || listInfixOf sub rest

/-- Substring test modelling `bytes.Contains(body, []byte(sub))`. -/
def strContains (hay sub : String) : Bool :=
  listInfixOf sub.toList hay.toList

/-- The body marker that, on a 500 response, is treated as an
authentication failure in `makeRequestWithRetry`. -/
def invalidTokenMarker : String := "Invalid token"

/-- The fixed allow-list `msgpackPaths` from `shouldUseJSON` in `client.go`. -/
def msgpackPaths : List String :=
  ["/api/insert/", "/api/batch_insert/", "/api/update/", "/api/batch_update/",
   "/api/delete/", "/api/batch_delete/", "/api/find/"]

/-- Literal model of `shouldUseJSON` in `client.go`: `false` (use MessagePack)
iff the path starts with one of the allow-listed CRUD path strings, else
`true` (use JSON). -/
def shouldUseJSON (path : String) : Bool :=
  !(msgpackPaths.any (fun p => strIsPrefixOf p path))

/-- Wire encodings a request/response body can use. -/
inductive WireFormat
  | msgpack
  | json
deriving DecidableEq

/-- Encoding chosen for the request body and `Content-Type`/`Accept` headers
in `makeRequestWithRetry`: MessagePack iff the path is not forced to JSON and
the client format is MessagePack (`if !forceJSON && c.format == MessagePack`). -/
def requestFormat (fmt : SerializationFormat) (path : String) : WireFormat :=
  if shouldUseJSON path = false ∧ fmt = SerializationFormat.MessagePack then
    WireFormat.msgpack
  else
    WireFormat.json

/-- Encoding chosen by `Client.unmarshal` in `client.go` for the response
body: JSON `if shouldUseJSON(path) || c.format == JSON`, else MessagePack. -/
def responseFormat (fmt : SerializationFormat) (path : String) : WireFormat :=
  if shouldUseJSON path = true ∨ fmt = SerializationFormat.JSON then
    WireFormat.json
  else
    WireFormat.msgpack

/-- The parsed snapshot built by `extractRateLimitInfo` once all three
headers are present (each parsed with `strconv.Atoi`, error ignored). -/
def rlOfHeaders (h : Headers) : RateLimitInfo :=
  { Limit := goAtoiD h.rlLimit, Remaining := goAtoiD h.rlRemaining,
    Reset := goAtoiD h.rlReset }

/-- Literal model of `Client.extractRateLimitInfo`: overwrite the snapshot
iff all three `X-RateLimit-*` headers are non-empty, else leave the client
untouched.  (The advisory near-limit log line has no state effect.) -/
def extractRateLimitInfo (c : Client) (h : Headers) : Client :=
  if h.rlLimit ≠ "" ∧ h.rlRemaining ≠ "" ∧ h.rlReset ≠ "" then
    { c with rateLimitInfo := some (rlOfHeaders h) }
  else
    c

/-- The `Retry-After` computation on a 429 response in
`makeRequestWithRetry`: default 60, replaced by the parsed header value when
the header is non-empty and parses. -/
def retryAfterOf (h : Headers) : Int :=
  if h.retryAfter ≠ "" then
    match goAtoi h.retryAfter with
    | some v => v
    | none => 60
  else
    60

instance : DecidableEq (Except ReqError String) := fun a b =>
  match a, b with
  | Except.ok x, Except.ok y =>
    if h : x = y then isTrue (congrArg Except.ok h)
    else isFalse (fun hc => h (Except.ok.inj hc))
  | Except.error x, Except.error y =>
    if h : x = y then isTrue (congrArg Except.error h)
    else isFalse (fun hc => h (Except.error.inj hc))
  | Except.ok _, Except.error _ => isFalse (fun hc => Except.noConfusion hc)
  | Except.error _, Except.ok _ => isFalse (fun hc => Except.noConfusion hc)

/-- Result of running one logical request: the returned body or typed error,
the client state afterwards, the number of sends to the request path, the
number of `refreshToken` calls, and the trace of slept durations (seconds). -/
structure ExecOut where
  result : Except ReqError String
  client : Client
  sends : Nat
  refreshCalls : Nat
  sleeps : List Int
deriving DecidableEq

/-- Literal model of `Client.makeRequestWithRetry` in `client.go`, one
constructor case per branch of the Go function, in source order: transport
error (retry after a 3s sleep while `shouldRetry && attempt < maxRetries`),
2xx success (extract rate-limit headers), 429 (retry sleeping `Retry-After`
seconds, else `RateLimitError`), 401 or 500-with-"Invalid token"-body
(refresh the token and resend once when `attempt == 0`, else the explicit
auth-failed error), 503 (retry after a 10s sleep), and the generic
`HTTPError` fallback.  Consumes one `Outcome` per send and one
`RefreshOutcome` per token refresh; `none` means the supplied environment
ended while the code would still send. -/
def makeRequestWithRetry : List Outcome → List RefreshOutcome → Client → Int → Option ExecOut
  | [], _, _, _ => none
  | Outcome.netError :: rest, refs, c, attempt =>
    if c.shouldRetry = true ∧ attempt < c.maxRetries then
      (makeRequestWithRetry rest refs c (attempt + 1)).map
        (fun e => { e with sends := e.sends + 1, sleeps := 3 :: e.sleeps })
    else
      some { result := Except.error ReqError.network, client := c,
             sends := 1, refreshCalls := 0, sleeps := [] }
  | Outcome.resp status body h :: rest, refs, c, attempt =>
    if 200 ≤ status ∧ status < 300 then
      some { result := Except.ok body, client := extractRateLimitInfo c h,
             sends := 1, refreshCalls := 0, sleeps := [] }
    else if status = 429 then
      if c.shouldRetry = true ∧ attempt < c.maxRetries then
        (makeRequestWithRetry rest refs c (attempt + 1)).map
          (fun e => { e with sends := e.sends + 1,
                             sleeps := retryAfterOf h :: e.sleeps })
      else
        some { result := Except.error (ReqError.rateLimit (retryAfterOf h) body),
               client := c, sends := 1, refreshCalls := 0, sleeps := [] }
    else if status = 401 ∨ (status = 500 ∧ strContains body invalidTokenMarker = true) then
      if attempt = 0 then
        match refs with
        | [] => none
        | RefreshOutcome.ok t :: rrest =>
          (makeRequestWithRetry rest rrest { c with token := t } (attempt + 1)).map
            (fun e => { e with sends := e.sends + 1,
                               refreshCalls := e.refreshCalls + 1 })
        | RefreshOutcome.fail m :: _ =>
          some { result := Except.error (ReqError.refreshFailed m), client := c,
                 sends := 1, refreshCalls := 1, sleeps := [] }
      else
        some { result := Except.error (ReqError.authFailedAfterRefresh status body),
               client := c, sends := 1, refreshCalls := 0, sleeps := [] }
    else if status = 503 ∧ c.shouldRetry = true ∧ attempt < c.maxRetries then
      (makeRequestWithRetry rest refs c (attempt + 1)).map
        (fun e => { e with sends := e.sends + 1, sleeps := 10 :: e.sleeps })
    else
      some { result := Except.error (ReqError.http status body), client := c,
             sends := 1, refreshCalls := 0, sleeps := [] }

/-- Literal model of `NewClientWithConfig` in `client.go`: default the
timeout (30s) and `MaxRetries` (3) when zero, build the client, then fetch
the initial token via `refreshToken`; a refresh failure fails construction. -/
def NewClientWithConfig (config : ClientConfig) (initialRefresh : RefreshOutcome) :
    Except String Client :=
  let timeoutV := if config.timeout = 0 then 30 * 1000000000 else config.timeout
  let maxRetriesV := if config.maxRetries = 0 then 3 else config.maxRetries
  let c : Client :=
    { baseURL := config.baseURL, apiKey := config.apiKey, token := "",
      shouldRetry := config.shouldRetry, maxRetries := maxRetriesV,
      timeout := timeoutV, format := config.format, rateLimitInfo := none }
  match initialRefresh with
  | RefreshOutcome.ok t => Except.ok { c with token := t }
  | RefreshOutcome.fail m => Except.error m

/-- The error branch of `Client.Exists` in `client.go`, applied to the
result of the `FindByID` lookup: a typed HTTP error with `IsNotFound()`
becomes `(false, nil)`, any other error is propagated, and a successful
lookup yields `(true, nil)`.  (The body decode inside `FindByID` is elided:
a 404 never reaches it, and its failures are non-`HTTPError` errors, which
fall into the propagated branch.) -/
def existsOfLookup (r : Except ReqError String) : Except ReqError Bool :=
  match r with
  | Except.ok _ => Except.ok true
  | Except.error e =>
    if errIsNotFound e = true then Except.ok false else Except.error e

/-- Token Manager state: the shared credential plus a count of network calls
made to the token-issuance endpoint. -/
structure TokenState where
  token : String
  refreshCalls : Nat
deriving DecidableEq

/-- Modelled from the spec: `getToken` of the Token Manager (§4.1) is
referenced only by tests under src/ (`token_refresh_test.go`); its body is
not in src/.  Per the spec it returns the current credential under a shared
lock. -/
def getToken (st : TokenState) : String :=
  st.token

/-- Modelled from the spec: `refreshTokenIfStale` of the Token Manager
(§4.1) is referenced only by tests under src/ (`token_refresh_test.go`); its
body is not in src/.  Per the spec it acquires the exclusive lock, re-reads
the credential while holding it, returns immediately if it no longer equals
the caller's observed value (double-check), and otherwise performs the
network refresh and stores the new token while still holding the lock.  The
mutex is rendered by letting the critical sections of concurrent callers
execute in sequence; `newToken` is the token the issuance endpoint returns. -/
def refreshTokenIfStale (observed newToken : String) (st : TokenState) : TokenState :=
  if st.token ≠ observed then
    st
  else
    { token := newToken, refreshCalls := st.refreshCalls + 1 }

/-- N concurrent callers of `refreshTokenIfStale`, serialized by the
exclusive lock into some order: each in turn runs its critical section. -/
def runStaleCallers (observed newToken : String) : Nat → TokenState → TokenState
  | 0, st => st
  | Nat.succ n, st => runStaleCallers observed newToken n (refreshTokenIfStale observed newToken st)

/-- Outcomes `makeRequestWithRetry` treats as retryable: a transport error,
HTTP 429, or HTTP 503. -/
def retryable : Outcome → Bool
  | Outcome.netError => true
  | Outcome.resp s _ _ => if s = 429 ∨ s = 503 then true else false

/-- Sleep (seconds) the executor performs before resending after a given
retryable outcome: 3 for a transport error, `Retry-After` for 429, 10 for 503. -/
def sleepOf : Outcome → Int
  | Outcome.netError => 3
  | Outcome.resp s _ h => if s = 429 then retryAfterOf h else 10

/-- Terminal error of the same kind as a retryable outcome, as produced when
retries are exhausted: the transport error itself for a network failure, a
`RateLimitError` carrying `Retry-After` and the body for 429, and the typed
HTTP error carrying status 503 and the body for 503. -/
def terminalOf : Outcome → Except ReqError String
  | Outcome.netError => Except.error ReqError.network
  | Outcome.resp s b h =>
    if s = 429 then Except.error (ReqError.rateLimit (retryAfterOf h) b)
    else Except.error (ReqError.http s b)

/-- Equality of the configuration captured at construction: everything in
`Client` except the mutable `token` and `rateLimitInfo`. -/
def sameConfig (c1 c2 : Client) : Prop :=
  c1.baseURL = c2.baseURL ∧ c1.apiKey = c2.apiKey ∧
  c1.shouldRetry = c2.shouldRetry ∧ c1.maxRetries = c2.maxRetries ∧
  c1.timeout = c2.timeout ∧ c1.format = c2.format

/-- Headers with nothing set (Go `Header.Get` yields `""` everywhere). -/
def hdrs0 : Headers :=
  { retryAfter := "", rlLimit := "", rlRemaining := "", rlReset := "" }

/-- Headers carrying all three rate-limit fields, for concrete witnesses. -/
def hdrsRL : Headers :=
  { retryAfter := "", rlLimit := "1000", rlRemaining := "250",
    rlReset := "1735689600" }

/-- A concrete constructed client used by witnesses. -/
def c0 : Client :=
  { baseURL := "http://localhost:8080", apiKey := "k", token := "t0",
    shouldRetry := true, maxRetries := 3, timeout := 5000000000,
    format := SerializationFormat.JSON, rateLimitInfo := none }

/-- A configuration with retries enabled but a negative `MaxRetries`. -/
def cfgNeg : ClientConfig :=
  { baseURL := "http://localhost:8080", apiKey := "k", shouldRetry := true,
    maxRetries := -1, timeout := 1, format := SerializationFormat.MessagePack }

/-- The client `NewClientWithConfig` builds from `cfgNeg` (token `"t"`). -/
def cNeg : Client :=
  { baseURL := "http://localhost:8080", apiKey := "k", token := "t",
    shouldRetry := true, maxRetries := -1, timeout := 1,
    format := SerializationFormat.MessagePack, rateLimitInfo := none }

/-- A configuration with `MaxRetries` and `Timeout` left zero. -/
def cfgZero : ClientConfig :=
  { baseURL := "b", apiKey := "k", shouldRetry := false, maxRetries := 0,
    timeout := 0, format := SerializationFormat.MessagePack }

/-- The client `NewClientWithConfig` builds from `cfgZero` (token `"t"`):
both zero fields replaced by their defaults. -/
def cZero : Client :=
  { baseURL := "b", apiKey := "k", token := "t", shouldRetry := false,
    maxRetries := 3, timeout := 30 * 1000000000,
    format := SerializationFormat.MessagePack, rateLimitInfo := none }

/-- Result of running `c0` against a single 500 response whose body lacks
the auth marker: the generic typed HTTP error, client untouched. -/
def e500 : ExecOut :=
  { result := Except.error (ReqError.http 500 "boom"), client := c0, sends := 1,
    refreshCalls := 0, sleeps := [] }

/- ## Theorems -/

lemma run_net_retry (rest : List Outcome) (refs : List RefreshOutcome) (c : Client)
    (a : Int) (hsr : c.shouldRetry = true) (hlt : a < c.maxRetries) :
    makeRequestWithRetry (Outcome.netError :: rest) refs c a =
      (makeRequestWithRetry rest refs c (a + 1)).map
        (fun e => { e with sends := e.sends + 1, sleeps := 3 :: e.sleeps }) := by
  simp only [makeRequestWithRetry]
  rw [if_pos ⟨hsr, hlt⟩]

lemma run_net_stop (rest : List Outcome) (refs : List RefreshOutcome) (c : Client)
    (a : Int) (hstop : ¬(c.shouldRetry = true ∧ a < c.maxRetries)) :
    makeRequestWithRetry (Outcome.netError :: rest) refs c a =
      some { result := Except.error ReqError.network, client := c, sends := 1,
             refreshCalls := 0, sleeps := [] } := by
  simp only [makeRequestWithRetry]
  rw [if_neg hstop]

lemma run_2xx (s : Int) (b : String) (h : Headers) (rest : List Outcome)
    (refs : List RefreshOutcome) (c : Client) (a : Int) (h2 : 200 ≤ s ∧ s < 300) :
    makeRequestWithRetry (Outcome.resp s b h :: rest) refs c a =
      some { result := Except.ok b, client := extractRateLimitInfo c h, sends := 1,
             refreshCalls := 0, sleeps := [] } := by
  simp only [makeRequestWithRetry]
  rw [if_pos h2]

lemma run_429_retry (b : String) (h : Headers) (rest : List Outcome)
    (refs : List RefreshOutcome) (c : Client) (a : Int)
    (hsr : c.shouldRetry = true) (hlt : a < c.maxRetries) :
    makeRequestWithRetry (Outcome.resp 429 b h :: rest) refs c a =
      (makeRequestWithRetry rest refs c (a + 1)).map
        (fun e => { e with sends := e.sends + 1,
                           sleeps := retryAfterOf h :: e.sleeps }) := by
  simp only [makeRequestWithRetry]
  rw [if_neg (by decide), if_pos trivial, if_pos ⟨hsr, hlt⟩]

lemma run_429_stop (b : String) (h : Headers) (rest : List Outcome)
    (refs : List RefreshOutcome) (c : Client) (a : Int)
    (hstop : ¬(c.shouldRetry = true ∧ a < c.maxRetries)) :
    makeRequestWithRetry (Outcome.resp 429 b h :: rest) refs c a =
      some { result := Except.error (ReqError.rateLimit (retryAfterOf h) b),
             client := c, sends := 1, refreshCalls := 0, sleeps := [] } := by
  simp only [makeRequestWithRetry]
  rw [if_neg (by decide), if_pos trivial, if_neg hstop]

lemma auth_not_2xx {s : Int} {b : String}
    (hauth : s = 401 ∨ (s = 500 ∧ strContains b invalidTokenMarker = true)) :
    ¬(200 ≤ s ∧ s < 300) := by
  rcases hauth with rfl | ⟨rfl, -⟩ <;> decide

lemma auth_not_429 {s : Int} {b : String}
    (hauth : s = 401 ∨ (s = 500 ∧ strContains b invalidTokenMarker = true)) :
    ¬(s = 429) := by
  rcases hauth with rfl | ⟨rfl, -⟩ <;> decide

lemma run_auth_refresh (s : Int) (b : String) (hdr : Headers) (rest : List Outcome)
    (refs : List RefreshOutcome) (c : Client) (t : String)
    (hauth : s = 401 ∨ (s = 500 ∧ strContains b invalidTokenMarker = true)) :
    makeRequestWithRetry (Outcome.resp s b hdr :: rest) (RefreshOutcome.ok t :: refs) c 0 =
      (makeRequestWithRetry rest refs { c with token := t } 1).map
        (fun e => { e with sends := e.sends + 1,
                           refreshCalls := e.refreshCalls + 1 }) := by
  simp only [makeRequestWithRetry]
  rw [if_neg (auth_not_2xx hauth), if_neg (auth_not_429 hauth), if_pos hauth,
    if_pos trivial]
  norm_num

lemma run_auth_refresh_fail (s : Int) (b : String) (hdr : Headers)
    (rest : List Outcome) (refs : List RefreshOutcome) (c : Client) (m : String)
    (hauth : s = 401 ∨ (s = 500 ∧ strContains b invalidTokenMarker = true)) :
    makeRequestWithRetry (Outcome.resp s b hdr :: rest)
        (RefreshOutcome.fail m :: refs) c 0 =
      some { result := Except.error (ReqError.refreshFailed m), client := c,
             sends := 1, refreshCalls := 1, sleeps := [] } := by
  simp only [makeRequestWithRetry]
  rw [if_neg (auth_not_2xx hauth), if_neg (auth_not_429 hauth), if_pos hauth,
    if_pos trivial]

lemma run_auth_stop (s : Int) (b : String) (hdr : Headers) (rest : List Outcome)
    (refs : List RefreshOutcome) (c : Client) (a : Int)
    (hauth : s = 401 ∨ (s = 500 ∧ strContains b invalidTokenMarker = true))
    (ha : ¬(a = 0)) :
    makeRequestWithRetry (Outcome.resp s b hdr :: rest) refs c a =
      some { result := Except.error (ReqError.authFailedAfterRefresh s b),
             client := c, sends := 1, refreshCalls := 0, sleeps := [] } := by
  simp only [makeRequestWithRetry]
  rw [if_neg (auth_not_2xx hauth), if_neg (auth_not_429 hauth), if_pos hauth,
    if_neg ha]

lemma run_503_retry (b : String) (h : Headers) (rest : List Outcome)
    (refs : List RefreshOutcome) (c : Client) (a : Int)
    (hsr : c.shouldRetry = true) (hlt : a < c.maxRetries) :
    makeRequestWithRetry (Outcome.resp 503 b h :: rest) refs c a =
      (makeRequestWithRetry rest refs c (a + 1)).map
        (fun e => { e with sends := e.sends + 1, sleeps := 10 :: e.sleeps }) := by
  simp only [makeRequestWithRetry]
  rw [if_neg (by decide), if_neg (by decide), if_neg (by simp),
    if_pos ⟨trivial, hsr, hlt⟩]

lemma run_other (s : Int) (b : String) (h : Headers) (rest : List Outcome)
    (refs : List RefreshOutcome) (c : Client) (a : Int)
    (hnot2xx : ¬(200 ≤ s ∧ s < 300)) (hnot429 : ¬(s = 429))
    (hnotauth : ¬(s = 401 ∨ (s = 500 ∧ strContains b invalidTokenMarker = true)))
    (hnot503 : ¬(s = 503 ∧ c.shouldRetry = true ∧ a < c.maxRetries)) :
    makeRequestWithRetry (Outcome.resp s b h :: rest) refs c a =
      some { result := Except.error (ReqError.http s b), client := c, sends := 1,
             refreshCalls := 0, sleeps := [] } := by
  simp only [makeRequestWithRetry]
  rw [if_neg hnot2xx, if_neg hnot429, if_neg hnotauth, if_neg hnot503]

lemma runStaleCallers_fixed (observed newToken : String) (hne : newToken ≠ observed) :
    ∀ n, runStaleCallers observed newToken n { token := newToken, refreshCalls := 1 } =
      { token := newToken, refreshCalls := 1 } := by
  intro n
  induction n with
  | zero => rfl
  | succ n ih =>
    have hstep : refreshTokenIfStale observed newToken
        { token := newToken, refreshCalls := 1 } =
        { token := newToken, refreshCalls := 1 } := by
      unfold refreshTokenIfStale
      simp [hne]
    simpa [runStaleCallers, hstep] using ih

/-- C1: under N ≥ 1 lock-serialized callers that all observed the same stale
token, `refreshTokenIfStale` performs exactly one network refresh call, and
the shared credential every caller subsequently reads via `getToken` is the
post-refresh token. -/
theorem single_flight_refresh (stale newToken : String) (n : Nat)
    (hn : 1 ≤ n) (hne : stale ≠ newToken) :
    runStaleCallers stale newToken n { token := stale, refreshCalls := 0 } =
      { token := newToken, refreshCalls := 1 } ∧
    getToken (runStaleCallers stale newToken n { token := stale, refreshCalls := 0 }) =
      newToken := by
  obtain ⟨m, rfl⟩ : ∃ m, n = m + 1 := ⟨n - 1, (Nat.succ_pred_eq_of_pos hn).symm⟩
  have hfirst : refreshTokenIfStale stale newToken { token := stale, refreshCalls := 0 } =
      { token := newToken, refreshCalls := 1 } := by
    unfold refreshTokenIfStale
    simp
  have hrun : runStaleCallers stale newToken (m + 1) { token := stale, refreshCalls := 0 } =
      { token := newToken, refreshCalls := 1 } := by
    have := runStaleCallers_fixed stale newToken (fun h => hne h.symm) m
    simpa [runStaleCallers, hfirst] using this
  exact ⟨hrun, by rw [hrun]; rfl⟩

/-- Witness for C1 at ten callers. -/
theorem single_flight_refresh_witness :
    runStaleCallers "stale-token-abc" "new-token" 10
        { token := "stale-token-abc", refreshCalls := 0 } =
      { token := "new-token", refreshCalls := 1 } ∧
    getToken (runStaleCallers "stale-token-abc" "new-token" 10
        { token := "stale-token-abc", refreshCalls := 0 }) = "new-token" :=
  single_flight_refresh "stale-token-abc" "new-token" 10 (by decide) (by decide)

/-- C2, counterexample: the path `/api/insert/users` is under a CRUD prefix
of the allow-list (`shouldUseJSON` is `false`), yet a client configured with
the JSON format serializes it as JSON — the chosen format is not independent
of the client-level format configuration. -/
theorem format_routing_config_dependent_cex :
    shouldUseJSON "/api/insert/users" = false ∧
    requestFormat SerializationFormat.JSON "/api/insert/users" = WireFormat.json ∧
    requestFormat SerializationFormat.MessagePack "/api/insert/users" = WireFormat.msgpack := by
  refine ⟨by decide, by decide, by decide⟩

/-- C2, amended: for every path and client format, serialization
(`requestFormat`, from `makeRequestWithRetry`) and deserialization
(`responseFormat`, from `unmarshal`) agree on the wire format; paths outside
the CRUD allow-list always use the text format regardless of configuration;
paths under the CRUD allow-list use the binary format exactly when the
client-level format is MessagePack (the default), and the text format when
the client opted into JSON.  Additionally, the `/api/batch/...` paths the
batch methods actually target are outside the allow-list (which lists
`/api/batch_insert/` etc.), so they always use the text format. -/
theorem format_routing_agrees (fmt : SerializationFormat) (path : String) :
    requestFormat fmt path = responseFormat fmt path ∧
    (shouldUseJSON path = true → requestFormat fmt path = WireFormat.json) ∧
    (shouldUseJSON path = false →
      requestFormat fmt path =
        (if fmt = SerializationFormat.MessagePack then WireFormat.msgpack
         else WireFormat.json)) ∧
    shouldUseJSON "/api/batch/insert/users" = true := by
  refine ⟨?_, ?_, ?_, by decide⟩
  · cases fmt <;> cases h : shouldUseJSON path <;>
      simp [requestFormat, responseFormat, h]
  · intro h
    simp [requestFormat, h]
  · intro h
    cases fmt <;> simp [requestFormat, h]

/-- Witness for C2's amended theorem: a CRUD path under a MessagePack client
goes binary, and the hypothesis-bearing conjuncts applied at concrete paths. -/
theorem format_routing_agrees_witness :
    requestFormat SerializationFormat.MessagePack "/api/find/users" =
      responseFormat SerializationFormat.MessagePack "/api/find/users" ∧
    requestFormat SerializationFormat.JSON "/api/kv/get/k" = WireFormat.json ∧
    requestFormat SerializationFormat.MessagePack "/api/find/users" =
      (if SerializationFormat.MessagePack = SerializationFormat.MessagePack then
        WireFormat.msgpack else WireFormat.json) :=
  ⟨(format_routing_agrees SerializationFormat.MessagePack "/api/find/users").1,
   (format_routing_agrees SerializationFormat.JSON "/api/kv/get/k").2.1 (by decide),
   (format_routing_agrees SerializationFormat.MessagePack "/api/find/users").2.2.1 (by decide)⟩

lemma retryable_resp {s : Int} {b : String} {h : Headers}
    (ho : retryable (Outcome.resp s b h) = true) : s = 429 ∨ s = 503 := by
  by_contra hc
  simp [retryable, hc] at ho

lemma retry_exhaust_aux (env : List Outcome) (o : Outcome) :
    ∀ (refs : List RefreshOutcome) (c : Client) (a : Int),
      c.shouldRetry = true →
      (∀ x ∈ env, retryable x = true) →
      retryable o = true →
      a + (env.length : Int) = c.maxRetries →
      makeRequestWithRetry (env ++ [o]) refs c a =
        some { result := terminalOf o, client := c, sends := env.length + 1,
               refreshCalls := 0, sleeps := env.map sleepOf } := by
  induction env with
  | nil =>
    intro refs c a hsr _ ho hlen
    simp only [List.length_nil, Int.natCast_zero, add_zero] at hlen
    have hnlt : ¬(a < c.maxRetries) := by omega
    cases o with
    | netError =>
      rw [List.nil_append, run_net_stop _ _ _ _ (fun hc => hnlt hc.2)]
      simp [terminalOf]
    | resp s b h =>
      rcases retryable_resp ho with rfl | rfl
      · rw [List.nil_append, run_429_stop _ _ _ _ _ _ (fun hc => hnlt hc.2)]
        simp [terminalOf]
      · rw [List.nil_append,
          run_other 503 b h _ _ _ _ (by decide) (by decide) (by simp)
            (fun hc => hnlt hc.2.2)]
        simp [terminalOf]
  | cons x env' ih =>
    intro refs c a hsr hall ho hlen
    simp only [List.length_cons] at hlen
    push_cast at hlen
    have hlt : a < c.maxRetries := by omega
    have hall' : ∀ y ∈ env', retryable y = true :=
      fun y hy => hall y (List.mem_cons_of_mem _ hy)
    have hih := ih refs c (a + 1) hsr hall' ho (by omega)
    cases x with
    | netError =>
      rw [List.cons_append, run_net_retry _ _ _ _ hsr hlt, hih]
      simp [sleepOf]
    | resp s b h =>
      rcases retryable_resp (hall _ (List.mem_cons_self _ _)) with rfl | rfl
      · rw [List.cons_append, run_429_retry b h _ _ _ _ hsr hlt, hih]
        simp [sleepOf]
      · rw [List.cons_append, run_503_retry b h _ _ _ _ hsr hlt, hih]
        simp [sleepOf]

lemma retry_under_aux (env : List Outcome) :
    ∀ (refs : List RefreshOutcome) (c : Client) (a : Int),
      c.shouldRetry = true →
      (∀ x ∈ env, retryable x = true) →
      a + (env.length : Int) ≤ c.maxRetries →
      makeRequestWithRetry env refs c a = none := by
  induction env with
  | nil => intro refs c a _ _ _; rfl
  | cons x env' ih =>
    intro refs c a hsr hall hlen
    simp only [List.length_cons] at hlen
    push_cast at hlen
    have hlt : a < c.maxRetries := by omega
    have hall' : ∀ y ∈ env', retryable y = true :=
      fun y hy => hall y (List.mem_cons_of_mem _ hy)
    have hih := ih refs c (a + 1) hsr hall' (by omega)
    cases x with
    | netError => rw [run_net_retry _ _ _ _ hsr hlt, hih]; rfl
    | resp s b h =>
      rcases retryable_resp (hall _ (List.mem_cons_self _ _)) with rfl | rfl
      · rw [run_429_retry _ _ _ _ _ _ hsr hlt, hih]; rfl
      · rw [run_503_retry _ _ _ _ _ _ hsr hlt, hih]; rfl

/-- C3: on a 401 response, or a 500 response whose body contains the
"Invalid token" marker, at attempt 0 the executor performs exactly one token
refresh (counted in `refreshCalls`) and re-sends exactly once with attempt 1
(first conjunct); the same auth failure at any attempt other than 0 is
terminal and reported as the explicit authentication-failed-after-refresh
error, never silently retried again (second conjunct). -/
theorem auth_refresh_exactly_once (status : Int) (body : String)
    (hauth : status = 401 ∨ (status = 500 ∧ strContains body invalidTokenMarker = true))
    (rest : List Outcome) (refs : List RefreshOutcome) (c : Client) (t : String)
    (hdrs : Headers) :
    (makeRequestWithRetry (Outcome.resp status body hdrs :: rest)
        (RefreshOutcome.ok t :: refs) c 0 =
      (makeRequestWithRetry rest refs { c with token := t } 1).map
        (fun e => { e with sends := e.sends + 1,
                           refreshCalls := e.refreshCalls + 1 })) ∧
    (∀ attempt : Int, attempt ≠ 0 → ∀ refs2 : List RefreshOutcome,
      makeRequestWithRetry (Outcome.resp status body hdrs :: rest) refs2 c attempt =
        some { result := Except.error (ReqError.authFailedAfterRefresh status body),
               client := c, sends := 1, refreshCalls := 0, sleeps := [] }) :=
  ⟨run_auth_refresh status body hdrs rest refs c t hauth,
   fun attempt ha refs2 => run_auth_stop status body hdrs rest refs2 c attempt hauth ha⟩

/-- Witness for C3: a 401 at attempt 0 refreshes once and re-enters at
attempt 1 with the new token. -/
theorem auth_refresh_exactly_once_witness :
    makeRequestWithRetry
        [Outcome.resp 401 "denied" hdrs0, Outcome.resp 200 "[]" hdrs0]
        [RefreshOutcome.ok "t1"] c0 0 =
      (makeRequestWithRetry [Outcome.resp 200 "[]" hdrs0] []
          { c0 with token := "t1" } 1).map
        (fun e => { e with sends := e.sends + 1,
                           refreshCalls := e.refreshCalls + 1 }) :=
  (auth_refresh_exactly_once 401 "denied" (Or.inl rfl)
    [Outcome.resp 200 "[]" hdrs0] [] c0 "t1" hdrs0).1

/-- C4: with retries enabled and every attempt failing with a retryable
outcome (network error, 429 or 503), the request is attempted exactly
`maxRetries + 1` times: given `maxRetries + 1` such outcomes the executor
consumes them all (`sends = env.length + 1` with `env.length = maxRetries`,
first conjunct), while any supply of at most `maxRetries` retryable outcomes
is fully consumed with the executor still wanting to re-send (second
conjunct); the final result is the terminal form of the last retryable
outcome's kind (`terminalOf`: the transport error itself, a `RateLimitError`
for an exhausted 429, the typed HTTP 503 error for 503 — never a masked
generic failure). -/
theorem retry_bounded (c : Client) (refs : List RefreshOutcome)
    (env : List Outcome) (o : Outcome) (hsr : c.shouldRetry = true)
    (hall : ∀ x ∈ env ++ [o], retryable x = true)
    (hlen : (env.length : Int) = c.maxRetries) :
    makeRequestWithRetry (env ++ [o]) refs c 0 =
      some { result := terminalOf o, client := c, sends := env.length + 1,
             refreshCalls := 0, sleeps := env.map sleepOf } ∧
    (∀ env2 : List Outcome, (∀ x ∈ env2, retryable x = true) →
      (env2.length : Int) ≤ c.maxRetries →
      makeRequestWithRetry env2 refs c 0 = none) := by
  constructor
  · exact retry_exhaust_aux env o refs c 0 hsr
      (fun x hx => hall x (List.mem_append_left _ hx))
      (hall o (by simp)) (by omega)
  · intro env2 hall2 hlen2
    exact retry_under_aux env2 refs c 0 hsr hall2 (by omega)

/-- Witness for C4: with `maxRetries = 3`, four straight network errors are
all consumed and yield the terminal network error after 3 sleeps, while a
single network error leaves the executor still re-sending. -/
theorem retry_bounded_witness :
    makeRequestWithRetry
        [Outcome.netError, Outcome.netError, Outcome.netError, Outcome.netError]
        [] c0 0 =
      some { result := terminalOf Outcome.netError, client := c0, sends := 4,
             refreshCalls := 0, sleeps := [3, 3, 3] } ∧
    makeRequestWithRetry [Outcome.netError] [] c0 0 = none :=
  ⟨(retry_bounded c0 [] [Outcome.netError, Outcome.netError, Outcome.netError]
      Outcome.netError rfl (by decide) (by decide)).1,
   (retry_bounded c0 [] [Outcome.netError, Outcome.netError, Outcome.netError]
      Outcome.netError rfl (by decide) (by decide)).2
     [Outcome.netError] (by decide) (by decide)⟩

/-- C6: on every 429 response the executor computes the retry-after value
from the `Retry-After` header — 60 when the header is absent (first
conjunct) or unparseable (second), else the parsed value (third); if retries
remain it sleeps that many seconds and re-sends with attempt+1 (fourth), and
if retries are exhausted it returns a `RateLimitError` carrying that
retry-after value and the raw response body (fifth). -/
theorem rate_limited_429 (hdr : Headers) (body : String) (rest : List Outcome)
    (refs : List RefreshOutcome) (c : Client) (attempt : Int) :
    (hdr.retryAfter = "" → retryAfterOf hdr = 60) ∧
    (goAtoi hdr.retryAfter = none → retryAfterOf hdr = 60) ∧
    (∀ v : Int, goAtoi hdr.retryAfter = some v → retryAfterOf hdr = v) ∧
    (c.shouldRetry = true → attempt < c.maxRetries →
      makeRequestWithRetry (Outcome.resp 429 body hdr :: rest) refs c attempt =
        (makeRequestWithRetry rest refs c (attempt + 1)).map
          (fun e => { e with sends := e.sends + 1,
                             sleeps := retryAfterOf hdr :: e.sleeps })) ∧
    (¬(c.shouldRetry = true ∧ attempt < c.maxRetries) →
      makeRequestWithRetry (Outcome.resp 429 body hdr :: rest) refs c attempt =
        some { result := Except.error (ReqError.rateLimit (retryAfterOf hdr) body),
               client := c, sends := 1, refreshCalls := 0, sleeps := [] }) := by
  refine ⟨?_, ?_, ?_, ?_, ?_⟩
  · intro he
    simp [retryAfterOf, he]
  · intro hn
    by_cases he : hdr.retryAfter = ""
    · simp [retryAfterOf, he]
    · simp [retryAfterOf, he, hn]
  · intro v hv
    have he : hdr.retryAfter ≠ "" := by
      intro he
      rw [he, show goAtoi "" = none from rfl] at hv
      exact Option.noConfusion hv
    simp [retryAfterOf, he, hv]
  · intro hsr hlt
    exact run_429_retry body hdr rest refs c attempt hsr hlt
  · intro hstop
    exact run_429_stop body hdr rest refs c attempt hstop

/-- Witness for C6: absent header defaults to 60; an exhausted 429 returns a
`RateLimitError` with that value and the raw body. -/
theorem rate_limited_429_witness :
    retryAfterOf hdrs0 = 60 ∧
    makeRequestWithRetry [Outcome.resp 429 "slow down" hdrs0] [] c0 3 =
      some { result := Except.error (ReqError.rateLimit (retryAfterOf hdrs0) "slow down"),
             client := c0, sends := 1, refreshCalls := 0, sleeps := [] } :=
  ⟨(rate_limited_429 hdrs0 "slow down" [] [] c0 3).1 rfl,
   (rate_limited_429 hdrs0 "slow down" [] [] c0 3).2.2.2.2 (by decide)⟩

/-- C7: the `IsNotFound` predicate of the typed HTTP error holds exactly
when the status code is 404 (first conjunct); a 404 response maps to that
typed error through the executor's generic branch regardless of attempt or
retry settings (second); when the find-by-id lookup fails with it the
existence check returns `false` with no error (third); every other lookup
error is propagated unchanged (fourth); a successful lookup gives `true`
(fifth). -/
theorem not_found_exists (body : String) (hdr : Headers) (rest : List Outcome)
    (refs : List RefreshOutcome) (c : Client) (attempt : Int) :
    (∀ e : HTTPError, e.IsNotFound = true ↔ e.StatusCode = 404) ∧
    (makeRequestWithRetry (Outcome.resp 404 body hdr :: rest) refs c attempt =
      some { result := Except.error (ReqError.http 404 body), client := c,
             sends := 1, refreshCalls := 0, sleeps := [] }) ∧
    (existsOfLookup (Except.error (ReqError.http 404 body)) = Except.ok false) ∧
    (∀ e : ReqError, errIsNotFound e = false →
      existsOfLookup (Except.error e) = Except.error e) ∧
    (∀ b : String, existsOfLookup (Except.ok b) = Except.ok true) := by
  refine ⟨?_, ?_, ?_, ?_, ?_⟩
  · intro e
    simp [HTTPError.IsNotFound]
  · exact run_other 404 body hdr rest refs c attempt (by decide) (by decide)
      (by simp) (by simp)
  · rfl
  · intro e he
    simp [existsOfLookup, he]
  · intro b
    rfl

/-- Witness for C7: the 404 predicate instance, and a non-404 error
(a transport failure) propagating through the existence check. -/
theorem not_found_exists_witness :
    (HTTPError.IsNotFound { StatusCode := 404, Message := "m" } = true ↔
      ((404 : Int) = 404)) ∧
    existsOfLookup (Except.error ReqError.network) = Except.error ReqError.network :=
  ⟨(not_found_exists "m" hdrs0 [] [] c0 0).1 { StatusCode := 404, Message := "m" },
   (not_found_exists "m" hdrs0 [] [] c0 0).2.2.2.1 ReqError.network rfl⟩

lemma sameConfig_refl (c : Client) : sameConfig c c :=
  ⟨rfl, rfl, rfl, rfl, rfl, rfl⟩

lemma sameConfig_extract (c : Client) (h : Headers) :
    sameConfig (extractRateLimitInfo c h) c := by
  unfold extractRateLimitInfo
  split
  · exact ⟨rfl, rfl, rfl, rfl, rfl, rfl⟩
  · exact sameConfig_refl c

lemma extract_rli_pos (c : Client) (h : Headers)
    (hh : h.rlLimit ≠ "" ∧ h.rlRemaining ≠ "" ∧ h.rlReset ≠ "") :
    (extractRateLimitInfo c h).rateLimitInfo = some (rlOfHeaders h) := by
  unfold extractRateLimitInfo
  rw [if_pos hh]

lemma extract_rli_neg (c : Client) (h : Headers)
    (hh : ¬(h.rlLimit ≠ "" ∧ h.rlRemaining ≠ "" ∧ h.rlReset ≠ "")) :
    extractRateLimitInfo c h = c := by
  unfold extractRateLimitInfo
  rw [if_neg hh]

lemma run_state_aux (env : List Outcome) :
    ∀ (refs : List RefreshOutcome) (c : Client) (a : Int) (e : ExecOut),
      makeRequestWithRetry env refs c a = some e →
      sameConfig e.client c ∧
      (e.client.rateLimitInfo = c.rateLimitInfo ∨
        ∃ s b h, Outcome.resp s b h ∈ env ∧ (200 ≤ s ∧ s < 300) ∧
          (h.rlLimit ≠ "" ∧ h.rlRemaining ≠ "" ∧ h.rlReset ≠ "") ∧
          e.client.rateLimitInfo = some (rlOfHeaders h)) := by
  induction env with
  | nil =>
    intro refs c a e hrun
    exact Option.noConfusion hrun
  | cons o rest ih =>
    intro refs c a e hrun
    cases o with
    | netError =>
      simp only [makeRequestWithRetry] at hrun
      split at hrun
      · rw [Option.map_eq_some'] at hrun
        obtain ⟨e1, he1, rfl⟩ := hrun
        obtain ⟨hconf, hrli⟩ := ih refs c (a + 1) e1 he1
        refine ⟨hconf, ?_⟩
        rcases hrli with h1 | ⟨s1, b1, h1, hmem, hrest⟩
        · exact Or.inl h1
        · exact Or.inr ⟨s1, b1, h1, List.mem_cons_of_mem _ hmem, hrest⟩
      · have hq := Option.some.inj hrun
        subst hq
        exact ⟨sameConfig_refl c, Or.inl rfl⟩
    | resp s b h =>
      simp only [makeRequestWithRetry] at hrun
      split at hrun
      · rename_i h2xx
        have hq := Option.some.inj hrun
        subst hq
        by_cases hh : h.rlLimit ≠ "" ∧ h.rlRemaining ≠ "" ∧ h.rlReset ≠ ""
        · exact ⟨sameConfig_extract c h,
            Or.inr ⟨s, b, h, List.mem_cons_self _ _, h2xx, hh,
              extract_rli_pos c h hh⟩⟩
        · exact ⟨sameConfig_extract c h,
            Or.inl (by rw [extract_rli_neg c h hh])⟩
      · split at hrun
        · split at hrun
          · rw [Option.map_eq_some'] at hrun
            obtain ⟨e1, he1, rfl⟩ := hrun
            obtain ⟨hconf, hrli⟩ := ih refs c (a + 1) e1 he1
            refine ⟨hconf, ?_⟩
            rcases hrli with h1 | ⟨s1, b1, h1, hmem, hrest⟩
            · exact Or.inl h1
            · exact Or.inr ⟨s1, b1, h1, List.mem_cons_of_mem _ hmem, hrest⟩
          · have hq := Option.some.inj hrun
            subst hq
            exact ⟨sameConfig_refl c, Or.inl rfl⟩
        · split at hrun
          · split at hrun
            · split at hrun
              · exact Option.noConfusion hrun
              · rw [Option.map_eq_some'] at hrun
                obtain ⟨e1, he1, rfl⟩ := hrun
                obtain ⟨hconf, hrli⟩ := ih _ _ _ _ he1
                refine ⟨hconf, ?_⟩
                rcases hrli with h1 | ⟨s1, b1, h1, hmem, hrest⟩
                · exact Or.inl h1
                · exact Or.inr ⟨s1, b1, h1, List.mem_cons_of_mem _ hmem, hrest⟩
              · have hq := Option.some.inj hrun
                subst hq
                exact ⟨sameConfig_refl c, Or.inl rfl⟩
            · have hq := Option.some.inj hrun
              subst hq
              exact ⟨sameConfig_refl c, Or.inl rfl⟩
          · split at hrun
            · rw [Option.map_eq_some'] at hrun
              obtain ⟨e1, he1, rfl⟩ := hrun
              obtain ⟨hconf, hrli⟩ := ih refs c (a + 1) e1 he1
              refine ⟨hconf, ?_⟩
              rcases hrli with h1 | ⟨s1, b1, h1, hmem, hrest⟩
              · exact Or.inl h1
              · exact Or.inr ⟨s1, b1, h1, List.mem_cons_of_mem _ hmem, hrest⟩
            · have hq := Option.some.inj hrun
              subst hq
              exact ⟨sameConfig_refl c, Or.inl rfl⟩

/-- C8: the rate-limit snapshot is overwritten iff a response has 2xx status
and carries all three `X-RateLimit-*` headers: with all three non-empty the
snapshot becomes their parsed values (first conjunct); with any of them
missing `extractRateLimitInfo` leaves the client untouched (second); the
executor feeds every 2xx response, and only those, through
`extractRateLimitInfo` (third); and across any whole execution the final
snapshot is either exactly the previous one or the parsed headers of a
consumed 2xx response carrying all three (fourth). -/
theorem rate_limit_snapshot :
    (∀ (c : Client) (h : Headers),
      h.rlLimit ≠ "" ∧ h.rlRemaining ≠ "" ∧ h.rlReset ≠ "" →
      extractRateLimitInfo c h = { c with rateLimitInfo := some (rlOfHeaders h) }) ∧
    (∀ (c : Client) (h : Headers),
      ¬(h.rlLimit ≠ "" ∧ h.rlRemaining ≠ "" ∧ h.rlReset ≠ "") →
      extractRateLimitInfo c h = c) ∧
    (∀ (s : Int) (b : String) (h : Headers) (rest : List Outcome)
      (refs : List RefreshOutcome) (c : Client) (a : Int),
      200 ≤ s ∧ s < 300 →
      makeRequestWithRetry (Outcome.resp s b h :: rest) refs c a =
        some { result := Except.ok b, client := extractRateLimitInfo c h,
               sends := 1, refreshCalls := 0, sleeps := [] }) ∧
    (∀ (env : List Outcome) (refs : List RefreshOutcome) (c : Client) (a : Int)
      (e : ExecOut), makeRequestWithRetry env refs c a = some e →
      e.client.rateLimitInfo = c.rateLimitInfo ∨
        ∃ s b h, Outcome.resp s b h ∈ env ∧ (200 ≤ s ∧ s < 300) ∧
          (h.rlLimit ≠ "" ∧ h.rlRemaining ≠ "" ∧ h.rlReset ≠ "") ∧
          e.client.rateLimitInfo = some (rlOfHeaders h)) := by
  refine ⟨?_, ?_, ?_, ?_⟩
  · intro c h hh
    unfold extractRateLimitInfo
    rw [if_pos hh]
  · intro c h hh
    exact extract_rli_neg c h hh
  · intro s b h rest refs c a h2
    exact run_2xx s b h rest refs c a h2
  · intro env refs c a e hrun
    exact (run_state_aux env refs c a e hrun).2

/-- Witness for C8: a response with all three headers overwrites the
snapshot with the parsed values; the 2xx branch routes it through
`extractRateLimitInfo`. -/
theorem rate_limit_snapshot_witness :
    extractRateLimitInfo c0 hdrsRL =
      { c0 with rateLimitInfo := some (rlOfHeaders hdrsRL) } ∧
    makeRequestWithRetry [Outcome.resp 200 "ok" hdrsRL] [] c0 0 =
      some { result := Except.ok "ok", client := extractRateLimitInfo c0 hdrsRL,
             sends := 1, refreshCalls := 0, sleeps := [] } :=
  ⟨rate_limit_snapshot.1 c0 hdrsRL (by decide),
   rate_limit_snapshot.2.2.1 200 "ok" hdrsRL [] [] c0 0 (by decide)⟩

/-- C9: across any execution of the request path, the configuration
captured at construction — base URL, API key, retry flag, max retries,
timeout and serialization format — is unchanged; only the token and the
rate-limit snapshot of the client may differ afterwards. -/
theorem config_frame (env : List Outcome) (refs : List RefreshOutcome)
    (c : Client) (a : Int) (e : ExecOut)
    (hrun : makeRequestWithRetry env refs c a = some e) :
    e.client.baseURL = c.baseURL ∧ e.client.apiKey = c.apiKey ∧
    e.client.shouldRetry = c.shouldRetry ∧ e.client.maxRetries = c.maxRetries ∧
    e.client.timeout = c.timeout ∧ e.client.format = c.format :=
  (run_state_aux env refs c a e hrun).1

/-- Witness for C9 on a concrete failing execution. -/
theorem config_frame_witness :
    e500.client.baseURL = c0.baseURL ∧ e500.client.apiKey = c0.apiKey ∧
    e500.client.shouldRetry = c0.shouldRetry ∧
    e500.client.maxRetries = c0.maxRetries ∧
    e500.client.timeout = c0.timeout ∧ e500.client.format = c0.format :=
  config_frame [Outcome.resp 500 "boom" hdrs0] [] c0 0 e500 (by decide)

/-- C10, counterexample: with `ShouldRetry = true` and `MaxRetries = -1`
(which `NewClientWithConfig` passes through unchanged, because only the
value 0 is replaced by the default 3), a single network error is terminal at
attempt 0 — so retries can be disabled without setting `ShouldRetry` to
false, contrary to the claim's final clause. -/
theorem negative_max_retries_cex :
    NewClientWithConfig cfgNeg (RefreshOutcome.ok "t") = Except.ok cNeg ∧
    cNeg.shouldRetry = true ∧ cNeg.maxRetries = -1 ∧
    makeRequestWithRetry [Outcome.netError] [] cNeg 0 =
      some { result := Except.error ReqError.network, client := cNeg, sends := 1,
             refreshCalls := 0, sleeps := [] } := by
  refine ⟨rfl, rfl, rfl, ?_⟩
  decide

/-- C10, amended: `NewClientWithConfig` replaces a `MaxRetries` of exactly 0
by the default 3, passes any other value (including negative ones) through
unchanged, and hence never constructs a client whose retry ceiling is 0; the
retry flag is taken from the configuration as-is, and a zero timeout is
likewise defaulted to 30s.  (Disabling retries is therefore possible either
via `ShouldRetry = false` or via a negative `MaxRetries`.) -/
theorem max_retries_default (config : ClientConfig) (r : RefreshOutcome)
    (c : Client) (hc : NewClientWithConfig config r = Except.ok c) :
    (config.maxRetries = 0 → c.maxRetries = 3) ∧
    (config.maxRetries ≠ 0 → c.maxRetries = config.maxRetries) ∧
    c.maxRetries ≠ 0 ∧
    c.shouldRetry = config.shouldRetry ∧
    (config.timeout = 0 → c.timeout = 30 * 1000000000) := by
  cases r with
  | fail m => exact absurd hc (by simp [NewClientWithConfig])
  | ok t =>
    simp only [NewClientWithConfig, Except.ok.injEq] at hc
    subst hc
    refine ⟨?_, ?_, ?_, rfl, ?_⟩
    · intro h0
      simp [h0]
    · intro h0
      simp [h0]
    · by_cases h0 : config.maxRetries = 0
      · simp [h0]
      · simp [h0]
    · intro h0
      simp [h0]

/-- Witness for C10's amended theorem at a configuration with both zero
fields. -/
theorem max_retries_default_witness :
    cZero.maxRetries = 3 ∧ cZero.timeout = 30 * 1000000000 :=
  ⟨(max_retries_default cfgZero (RefreshOutcome.ok "t") cZero rfl).1 rfl,
   (max_retries_default cfgZero (RefreshOutcome.ok "t") cZero rfl).2.2.2.2 rfl⟩

end Ekodb
